import Mathlib

/-
Verification development for the offline-web task list (src/script.js).

The domain core of the program is the class OfflineTodoApp.  Its state and
operations are embedded shallowly below:

  - JS objects become Lean structures; numeric timestamps (Date.now and
    toISOString values) become Nat parameters supplied by the caller, since
    they are environment inputs to the program.
  - The mutation methods addTodo, toggleTodo, deleteTodo, saveEdit,
    addToPendingSync, syncData become pure state-transformers on AppState.
    DOM rendering (render, updateStats, updateFilterButtons,
    updateOnlineStatus) does not touch the domain state and is omitted.
  - localStorage becomes the storedTodos / storedPending fields of AppState;
    showNotification appends to a notifications log; showSyncIndicator sets
    a Boolean flag.
  - The remote client simulateApiCall is a parameter
    api : Nat -> SyncItem -> Bool giving the outcome of the call at each
    position of the drain (the repository's own client always returns
    success and never rejects; a rejected promise is modelled as false).
    The awaited for-loop of syncData becomes the structurally sequential
    recursion drainGo, which mirrors the fact that each call completes
    before the next entry is attempted.
  - jsTrim stands for String.prototype.trim; the claims only depend on
    whether the trimmed text is empty.
  - Queue entries are snapshots of the task object passed to
    addToPendingSync.  In JS the entry aliases the live object, but no
    operation ever mutates an id field, and the claims inspect entries only
    through data.id and their order, so value semantics is observationally
    identical for every property proved here.
-/

namespace OfflineWeb

/-- syncStatus field values: the string enum {synced, pending} of script.js. -/
inductive SyncStatus
  | synced
  | pending
deriving DecidableEq

/-- Mutation kinds used by addToPendingSync: create, update, delete. -/
inductive Action
  | create
  | update
  | delete
deriving DecidableEq

/-- A task object as built in addTodo (script.js lines 193-200).
Timestamps are Nat (Date.now / toISOString values). -/
structure Task where
  id : Nat
  text : String
  completed : Bool
  createdAt : Nat
  lastModified : Nat
  syncStatus : SyncStatus
deriving DecidableEq

/-- The data field of a queue entry: a full task snapshot for create/update,
an object carrying only the id for delete (script.js line 249). -/
inductive SyncData
  | task (t : Task)
  | idOnly (id : Nat)
deriving DecidableEq

/-- The id carried by a queue entry's data (item.data.id in syncData). -/
def SyncData.id : SyncData → Nat
  | .task t => t.id
  | .idOnly i => i

/-- A pending-sync queue entry as built in addToPendingSync
(script.js lines 294-299). -/
structure SyncItem where
  id : Nat
  action : Action
  data : SyncData
  timestamp : Nat
deriving DecidableEq

/-- Toast kinds accepted by showNotification. -/
inductive NotifKind
  | info
  | success
  | error
deriving DecidableEq

/-- One toast: message and kind. -/
structure Notif where
  message : String
  kind : NotifKind
deriving DecidableEq

/-- The domain state of OfflineTodoApp: the in-memory fields todos,
pendingSync, isOnline; the two localStorage keys as storedTodos and
storedPending; the log of notifications shown; and the sync indicator. -/
structure AppState where
  todos : List Task
  pendingSync : List SyncItem
  isOnline : Bool
  storedTodos : List Task
  storedPending : List SyncItem
  notifications : List Notif
  syncIndicator : Bool
deriving DecidableEq

/-- Replace the first element satisfying p by its image under f, leaving the
rest unchanged.  This is the effect of the JS pattern
"const x = list.find(p); if (x) mutate(x)". -/
def updateFirst (p : α → Bool) (f : α → α) : List α → List α
  | [] => []
  | x :: xs => if p x then f x :: xs else x :: updateFirst p f xs

/-- saveTodos (script.js lines 510-516): persist the task collection. -/
def saveTodos (s : AppState) : AppState :=
  { s with storedTodos := s.todos }

/-- savePendingSync (script.js lines 528-534): persist the queue. -/
def savePendingSync (s : AppState) : AppState :=
  { s with storedPending := s.pendingSync }

/-- showNotification (script.js lines 374-396): append a toast to the log. -/
def showNotification (s : AppState) (message : String) (kind : NotifKind) : AppState :=
  { s with notifications := s.notifications ++ [⟨message, kind⟩] }

/-- showSyncIndicator (script.js lines 185-187). -/
def showSyncIndicator (s : AppState) (b : Bool) : AppState :=
  { s with syncIndicator := b }

/-- addToPendingSync (script.js lines 293-303): push one entry onto the end
of the queue and persist it.  The entry id Date.now() + Math.random() is
modelled by the caller-supplied now (no claim concerns entry ids). -/
def addToPendingSync (s : AppState) (now : Nat) (action : Action) (data : SyncData) : AppState :=
  savePendingSync { s with pendingSync := s.pendingSync ++ [⟨now, action, data, now⟩] }

/-- String.prototype.trim: drop whitespace from both ends.  Defined by
structural recursion on the character list so that concrete inputs evaluate
inside the kernel (Lean's own String.trim is built on well-founded
Substring recursion and does not). -/
def jsTrim (s : String) : String :=
  ⟨(((s.data.dropWhile Char.isWhitespace).reverse.dropWhile Char.isWhitespace).reverse)⟩

/-- The task literal constructed in addTodo (script.js lines 193-200). -/
def mkTodo (now : Nat) (text : String) (isOnline : Bool) : Task :=
  ⟨now, text, false, now, now, if isOnline then .synced else .pending⟩

/-- addTodo (script.js lines 189-220).  Empty trimmed text is a no-op;
otherwise the new task is unshifted onto the front of todos, enqueued as a
create mutation when offline, and the collection is persisted.  The online
fire-and-forget simulateApiCall ignores its result and changes no state. -/
def addTodo (s : AppState) (now : Nat) (input : String) : AppState :=
  let text := jsTrim input
  if text = "" then s
  else
    let todo := mkTodo now text s.isOnline
    let s1 := { s with todos := todo :: s.todos }
    let s2 := if s.isOnline then s1 else addToPendingSync s1 now .create (.task todo)
    saveTodos s2

/-- The task as mutated by toggleTodo (script.js lines 225-227). -/
def toggledTask (t0 : Task) (now : Nat) (isOnline : Bool) : Task :=
  { t0 with
    completed := !t0.completed
    lastModified := now
    syncStatus := if isOnline then .synced else .pending }

/-- The task as mutated by saveEdit (script.js lines 270-272). -/
def editedTask (t0 : Task) (now : Nat) (text : String) (isOnline : Bool) : Task :=
  { t0 with
    text := text
    lastModified := now
    syncStatus := if isOnline then .synced else .pending }

/-- Common tail of toggleTodo and saveEdit: the found task object has been
mutated into t1 (in JS in place, here by replacing the first task whose id
matches); when offline an update mutation with the mutated task is
enqueued; the collection is persisted. -/
def replaceTodo (s : AppState) (now id : Nat) (t1 : Task) : AppState :=
  let s1 := { s with todos := updateFirst (fun t => t.id == id) (fun _ => t1) s.todos }
  let s2 := if s.isOnline then s1 else addToPendingSync s1 now .update (.task t1)
  saveTodos s2

/-- toggleTodo (script.js lines 222-241).  find-then-mutate on the first
task with the given id; recompute syncStatus from connectivity; enqueue an
update mutation with the mutated task when offline. -/
def toggleTodo (s : AppState) (now : Nat) (id : Nat) : AppState :=
  match s.todos.find? (fun t => t.id == id) with
  | none => s
  | some t0 => replaceTodo s now id (toggledTask t0 now s.isOnline)

/-- deleteTodo (script.js lines 243-260).  Guarded by find; removes every
task with the id via filter; enqueues a delete mutation carrying only the
id when offline. -/
def deleteTodo (s : AppState) (now : Nat) (id : Nat) : AppState :=
  match s.todos.find? (fun t => t.id == id) with
  | none => s
  | some _ =>
    let s1 := { s with todos := s.todos.filter (fun t => t.id != id) }
    let s2 := if s.isOnline then s1 else addToPendingSync s1 now .delete (.idOnly id)
    saveTodos s2

/-- saveEdit (script.js lines 267-286).  No-op when the id is absent or the
trimmed replacement text is empty; otherwise like toggleTodo but replacing
the text. -/
def saveEdit (s : AppState) (now : Nat) (id : Nat) (newText : String) : AppState :=
  match s.todos.find? (fun t => t.id == id) with
  | none => s
  | some t0 =>
    if jsTrim newText = "" then s
    else replaceTodo s now id (editedTask t0 now (jsTrim newText) s.isOnline)

/-- The argument pair (item.action, item.data) passed to the remote client
for one queue entry. -/
def toCall (m : SyncItem) : Action × SyncData :=
  (m.action, m.data)

/-- The per-entry status update of syncData (script.js lines 317-323):
"if (item.data.id) { const todo = todos.find(t => t.id === item.data.id);
if (todo) todo.syncStatus = synced }".  The truthiness test on data.id
fails exactly when the id is 0. -/
def markSynced (todos : List Task) (m : SyncItem) : List Task :=
  if m.data.id != 0 then
    updateFirst (fun t => t.id == m.data.id) (fun t => { t with syncStatus := .synced }) todos
  else todos

/-- The awaited for-loop of syncData (script.js lines 313-324) together with
the try/catch outcome.  Returns the list of calls issued (in order), the
task list after the per-entry status updates, and true when every call
succeeded.  A false api outcome is the rejected promise that aborts the
loop; the failing call itself was issued. -/
def drainGo (api : Nat → SyncItem → Bool) :
    Nat → List SyncItem → List Task → List (Action × SyncData) × List Task × Bool
  | _, [], todos => ([], todos, true)
  | idx, m :: rest, todos =>
    if api idx m then
      let r := drainGo api (idx + 1) rest (markSynced todos m)
      (toCall m :: r.1, r.2)
    else ([toCall m], todos, false)

/-- How many leading calls succeed before the first failure (the whole
queue when no call fails). -/
def succCount (api : Nat → SyncItem → Bool) : Nat → List SyncItem → Nat
  | _, [] => 0
  | idx, m :: rest => if api idx m then succCount api (idx + 1) rest + 1 else 0

/-- syncData (script.js lines 307-342).  Early return unless online with a
non-empty queue; otherwise show the indicator, run the loop; on full
success clear and persist the queue, persist todos and show the success
toast; on failure show the error toast and touch nothing else; always clear
the indicator. -/
def syncData (api : Nat → SyncItem → Bool) (s : AppState) : AppState :=
  if !s.isOnline || s.pendingSync.isEmpty then s
  else
    let s0 := showSyncIndicator s true
    let r := drainGo api 0 s0.pendingSync s0.todos
    let s1 :=
      if r.2.2 then
        let sA := { s0 with todos := r.2.1, pendingSync := [] }
        let sB := saveTodos (savePendingSync sA)
        showNotification sB "Sync completed successfully!" .success
      else
        showNotification { s0 with todos := r.2.1 } "Sync failed. Will retry later." .error
    showSyncIndicator s1 false

/-- One user-or-environment step of the app.  goOnline is the browser
online event handler (script.js lines 113-118): set isOnline and invoke
syncData; goOffline is the offline handler (lines 120-124); sync is a
direct syncData invocation (sync button, line 109, or the visibilitychange
handler, lines 541-545).  Each mutation op carries its Date.now value. -/
inductive Op
  | add (now : Nat) (text : String)
  | toggle (now id : Nat)
  | del (now id : Nat)
  | edit (now id : Nat) (text : String)
  | goOffline
  | goOnline (api : Nat → SyncItem → Bool)
  | sync (api : Nat → SyncItem → Bool)

/-- Apply one step. -/
def applyOp (s : AppState) : Op → AppState
  | .add now text => addTodo s now text
  | .toggle now id => toggleTodo s now id
  | .del now id => deleteTodo s now id
  | .edit now id text => saveEdit s now id text
  | .goOffline => { s with isOnline := false }
  | .goOnline api => syncData api { s with isOnline := true }
  | .sync api => syncData api s

/-- Run a sequence of steps. -/
def runOps (s : AppState) (ops : List Op) : AppState :=
  ops.foldl applyOp s

/-- Fresh app state with empty storage (constructor, lines 63-68, with both
localStorage keys absent); navigator.onLine is the online parameter. -/
def initState (online : Bool) : AppState :=
  ⟨[], [], online, [], [], [], false⟩

/-- The Date.now value an op consumes, if any. -/
def opClock : Op → Option Nat
  | .add now _ => some now
  | .toggle now _ => some now
  | .del now _ => some now
  | .edit now _ _ => some now
  | _ => none

/-- The clock values of the mutation ops are at least c and strictly
increase along the trace (Date.now advanced by at least 1ms between
operations). -/
def clocksOk : Nat → List Op → Bool
  | _, [] => true
  | c, op :: rest =>
    match opClock op with
    | none => clocksOk c rest
    | some n => c ≤ n && clocksOk (n + 1) rest

/-- The clock bound after running a trace. -/
def endClock : Nat → List Op → Nat
  | c, [] => c
  | c, op :: rest =>
    match opClock op with
    | none => endClock c rest
    | some n => endClock (n + 1) rest

/-- A remote client that succeeds on every call, like the repository's
simulateApiCall (script.js lines 344-349). -/
def goodApi (api : Nat → SyncItem → Bool) : Prop :=
  ∀ i m, api i m = true

/-- Every drain invoked by the op uses an always-succeeding client. -/
def OpGood : Op → Prop
  | .goOnline api => goodApi api
  | .sync api => goodApi api
  | _ => True

/-
Event-level model for the interleaving claim C3.  syncData suspends at its
awaits, so several invocations can be in flight at once; activeDrains
counts the invocations that have passed the guard at line 308 and not yet
finished.  Each event is one synchronous handler run of script.js:
  - online: the window online listener (lines 113-118) sets isOnline true
    and calls syncData, whose guard admits a new drain iff the queue is
    non-empty (isOnline just became true);
  - offline: the window offline listener (lines 120-124);
  - probe ok: doConnectivityCheck (lines 132-159) resolving: on success it
    starts a sync only when the state was offline (line 145,
    response.ok and not isOnline); on failure it only flips an online
    state to offline (line 153);
  - finish success: a running drain leaves its try/finally; with the
    repository's client, success clears the queue, otherwise the queue is
    kept.
-/

/-- State for the connectivity/drain interleaving model. -/
structure EState where
  isOnline : Bool
  queue : List SyncItem
  activeDrains : Nat
deriving DecidableEq

/-- Connectivity-restoration events, probe completions, and drain
completions. -/
inductive NetEvent
  | online
  | offline
  | probe (ok : Bool)
  | finish (success : Bool)

/-- One event-handler run, as described above. -/
def estep (s : EState) : NetEvent → EState
  | .online =>
    let s1 := { s with isOnline := true }
    if s1.queue.isEmpty then s1 else { s1 with activeDrains := s1.activeDrains + 1 }
  | .offline => { s with isOnline := false }
  | .probe ok =>
    if ok then
      if s.isOnline then s
      else
        let s1 := { s with isOnline := true }
        if s1.queue.isEmpty then s1 else { s1 with activeDrains := s1.activeDrains + 1 }
    else if s.isOnline then { s with isOnline := false }
    else s
  | .finish success =>
    if s.activeDrains = 0 then s
    else { s with activeDrains := s.activeDrains - 1, queue := if success then [] else s.queue }

/-- Run a sequence of events. -/
def runNet (s : EState) (es : List NetEvent) : EState :=
  es.foldl estep s

/-
Model for the Durable Store loads (claim C9).  localStorage.getItem yields
Option String (an empty stored string is falsy in JS, like null).
JSON.parse is the platform, not repository code; it is a parameter
parse : String -> Except String v, where an error is a thrown SyntaxError
and an ok value is whatever JavaScript value the text denotes - possibly
not an array at all.  JsonVal distinguishes a parsed array of the expected
elements from any other parsed value.
-/

/-- A parsed JSON value: an array of the expected collection elements, or
some other value (number, string, object, ...). -/
inductive JsonVal (α : Type)
  | coll (xs : List α)
  | noncoll (desc : String)
deriving DecidableEq

/-- loadTodos (script.js lines 500-508): absent or empty stored text gives
the empty array; a parse exception is caught and gives the empty array; a
successful parse is returned as-is. -/
def loadTodos (parse : String → Except String (JsonVal Task)) (stored : Option String) :
    JsonVal Task :=
  match stored with
  | none => .coll []
  | some str =>
    if str = "" then .coll []
    else
      match parse str with
      | .ok v => v
      | .error _ => .coll []

/-- loadPendingSync (script.js lines 518-526): same shape as loadTodos for
the pendingSync key. -/
def loadPendingSync (parse : String → Except String (JsonVal SyncItem)) (stored : Option String) :
    JsonVal SyncItem :=
  match stored with
  | none => .coll []
  | some str =>
    if str = "" then .coll []
    else
      match parse str with
      | .ok v => v
      | .error _ => .coll []

/-- Modelled from the spec: the platform JSON.parse on the one input the
counterexample uses.  ECMAScript JSON.parse of the text 5 succeeds and
yields the number 5, which is not an array; every other input is treated
as throwing a SyntaxError. -/
def jsonParseNum (str : String) : Except String (JsonVal Task) :=
  if str = "5" then .ok (.noncoll "the number 5") else .error "SyntaxError"

/-- A stored value on which loading must fall back to the empty collection:
absent, empty (falsy), or parse-throwing. -/
def FallbackStored (parse : String → Except String (JsonVal α)) (stored : Option String) : Prop :=
  stored = none ∨ stored = some "" ∨
    ∃ str e, stored = some str ∧ parse str = .error e

/-
Specification-side predicates.
-/

/-- Claim C2's invariant: a task is pending exactly when some queue entry
references its id. -/
def statusConsistent (s : AppState) : Prop :=
  ∀ t ∈ s.todos, (t.syncStatus = .pending ↔ ∃ m ∈ s.pendingSync, m.data.id = t.id)

/-- No two positions of the collection hold the same id. -/
def distinctIds (todos : List Task) : Prop :=
  todos.Pairwise fun a b => a.id ≠ b.id

/-- All task ids and queued data ids are positive and below c. -/
def boundedBy (s : AppState) (c : Nat) : Prop :=
  (∀ t ∈ s.todos, 0 < t.id ∧ t.id < c) ∧
    (∀ m ∈ s.pendingSync, 0 < m.data.id ∧ m.data.id < c)

/-- Inductive invariant for the always-succeeding-client runs: online
states carry an empty queue, ids are distinct, and status consistency
holds. -/
def InvC2 (s : AppState) : Prop :=
  (s.isOnline = true → s.pendingSync = []) ∧ distinctIds s.todos ∧ statusConsistent s

/-- The effect on one task of replaying one queue entry whose call
succeeded: synced when the entry references the task's (truthy) id. -/
def markIf (m : SyncItem) (t : Task) : Task :=
  if m.data.id != 0 && t.id == m.data.id then { t with syncStatus := .synced } else t

/-- The effect of a fully successful drain on one task: synced when some
queue entry references its (truthy) id, untouched otherwise. -/
def anyMark (q : List SyncItem) (t : Task) : Task :=
  if q.any (fun m => m.data.id != 0 && t.id == m.data.id) then { t with syncStatus := .synced }
  else t

instance (s : AppState) : Decidable (statusConsistent s) := by
  unfold statusConsistent; infer_instance

instance (todos : List Task) : Decidable (distinctIds todos) := by
  unfold distinctIds; infer_instance

instance (s : AppState) : Decidable (InvC2 s) := by
  unfold InvC2; infer_instance

/-
Helper lemmas about updateFirst, markSynced and drainGo.
-/

theorem map_updateFirst (g : α → β) (p : α → Bool) (f : α → α)
    (h : ∀ x, p x = true → g (f x) = g x) :
    ∀ l : List α, (updateFirst p f l).map g = l.map g
  | [] => rfl
  | x :: xs => by
    by_cases hp : p x = true
    · simp [updateFirst, hp, h x hp]
    · simp [updateFirst, hp, map_updateFirst g p f h xs]

theorem updateFirst_eq_map_of_distinct (n : Nat) (f : Task → Task) :
    ∀ todos : List Task, distinctIds todos →
      updateFirst (fun t => t.id == n) f todos =
        todos.map fun t => if t.id == n then f t else t
  | [], _ => rfl
  | t :: ts, h => by
    have h' := h
    unfold distinctIds at h'
    rcases List.pairwise_cons.mp h' with ⟨hhead, htail⟩
    by_cases ht : (t.id == n) = true
    · have hn : t.id = n := by simpa using ht
      have hrest : ∀ x ∈ ts, (if x.id == n then f x else x) = x := by
        intro x hx
        have hne : x.id ≠ n := fun hc => (hhead x hx) (hn.trans hc.symm)
        simp [hne]
      simp only [updateFirst, ht, if_true, List.map_cons]
      rw [List.map_congr_left hrest, List.map_id']
    · have hrec := updateFirst_eq_map_of_distinct n f ts htail
      simp only [updateFirst, ht, if_false, List.map_cons, Bool.false_eq_true]
      rw [hrec]

theorem markSynced_map_id (todos : List Task) (m : SyncItem) :
    (markSynced todos m).map Task.id = todos.map Task.id := by
  unfold markSynced
  by_cases h : (m.data.id != 0) = true
  · simpa [h] using map_updateFirst Task.id (fun t => t.id == m.data.id)
      (fun t => { t with syncStatus := .synced }) (fun _ _ => rfl) todos
  · simp [h]

theorem distinctIds_of_map_id_eq {l l' : List Task}
    (h : l'.map Task.id = l.map Task.id) (hd : distinctIds l) : distinctIds l' := by
  unfold distinctIds at hd ⊢
  have h1 : (l.map Task.id).Pairwise (· ≠ ·) := List.pairwise_map.mpr hd
  rw [← h] at h1
  exact List.pairwise_map.mp h1

theorem distinctIds_markSynced {todos : List Task} (m : SyncItem)
    (h : distinctIds todos) : distinctIds (markSynced todos m) :=
  distinctIds_of_map_id_eq (markSynced_map_id todos m) h

theorem markSynced_eq_map (todos : List Task) (m : SyncItem) (h : distinctIds todos) :
    markSynced todos m = todos.map (markIf m) := by
  unfold markSynced markIf
  by_cases h0 : (m.data.id != 0) = true
  · rw [if_pos h0, updateFirst_eq_map_of_distinct m.data.id _ todos h]
    apply List.map_congr_left
    intro t ht
    simp [h0]
  · rw [if_neg h0]
    have : ∀ t ∈ todos,
        (if m.data.id != 0 && t.id == m.data.id then { t with syncStatus := .synced } else t)
          = t := by
      intro t ht
      simp [h0]
    rw [List.map_congr_left this, List.map_id']

theorem markIf_anyMark (m : SyncItem) (q : List SyncItem) (t : Task) :
    anyMark q (markIf m t) = anyMark (m :: q) t := by
  unfold anyMark markIf
  by_cases hm : (m.data.id != 0 && t.id == m.data.id) = true
  · rw [if_pos hm]
    simp only [List.any_cons, hm, Bool.true_or, if_true]
    by_cases hq : (q.any fun m' => m'.data.id != 0 && t.id == m'.data.id) = true
    · simp [hq]
    · simp [hq]
  · rw [if_neg hm]
    simp only [List.any_cons, hm, Bool.false_or]

theorem foldl_markSynced_eq_map :
    ∀ (q : List SyncItem) (todos : List Task), distinctIds todos →
      q.foldl markSynced todos = todos.map (anyMark q)
  | [], todos, _ => by
    simp only [List.foldl_nil]
    have : ∀ t ∈ todos, anyMark [] t = t := by intro t _; simp [anyMark]
    rw [List.map_congr_left this, List.map_id']
  | m :: q', todos, h => by
    rw [List.foldl_cons,
      foldl_markSynced_eq_map q' (markSynced todos m) (distinctIds_markSynced m h),
      markSynced_eq_map todos m h, List.map_map]
    apply List.map_congr_left
    intro t _
    exact markIf_anyMark m q' t

theorem drainGo_good {api : Nat → SyncItem → Bool} (h : goodApi api) :
    ∀ (idx : Nat) (q : List SyncItem) (todos : List Task),
      drainGo api idx q todos = (q.map toCall, q.foldl markSynced todos, true)
  | _, [], _ => by simp [drainGo]
  | idx, m :: rest, todos => by
    simp [drainGo, h idx m, drainGo_good h (idx + 1) rest (markSynced todos m)]

theorem drainGo_map_id (api : Nat → SyncItem → Bool) :
    ∀ (q : List SyncItem) (idx : Nat) (todos : List Task),
      ((drainGo api idx q todos).2.1).map Task.id = todos.map Task.id
  | [], _, _ => rfl
  | m :: rest, idx, todos => by
    by_cases hm : api idx m = true
    · simp only [drainGo, hm, if_true]
      rw [drainGo_map_id api rest (idx + 1) (markSynced todos m), markSynced_map_id]
    · simp [drainGo, hm]

theorem drain_fifo_aux (api : Nat → SyncItem → Bool) :
    ∀ (q : List SyncItem) (idx : Nat) (todos : List Task),
      succCount api idx q ≤ q.length ∧
      ((drainGo api idx q todos).2.2 = true ↔ succCount api idx q = q.length) ∧
      (drainGo api idx q todos).1 =
        (q.take (if (drainGo api idx q todos).2.2 then succCount api idx q
                 else succCount api idx q + 1)).map toCall ∧
      (drainGo api idx q todos).2.1 = (q.take (succCount api idx q)).foldl markSynced todos
  | [], idx, todos => by simp [drainGo, succCount]
  | m :: rest, idx, todos => by
    by_cases hm : api idx m = true
    · obtain ⟨h1, h2, h3, h4⟩ := drain_fifo_aux api rest (idx + 1) (markSynced todos m)
      refine ⟨?_, ?_, ?_, ?_⟩
      · simpa [succCount, hm] using Nat.succ_le_succ h1
      · simp only [drainGo, succCount, hm, if_true, List.length_cons]
        rw [h2]
        omega
      · simp only [drainGo, succCount, hm, if_true]
        rw [h3]
        by_cases hok : (drainGo api (idx + 1) rest (markSynced todos m)).2.2 = true
        · simp [hok, List.take_succ_cons, toCall]
        · simp [hok, List.take_succ_cons, toCall]
      · simp only [drainGo, succCount, hm, if_true]
        rw [h4, List.take_succ_cons, List.foldl_cons]
    · refine ⟨?_, ?_, ?_, ?_⟩
      · simp [succCount, hm]
      · simp [drainGo, succCount, hm]
      · simp [drainGo, succCount, hm, List.take_succ_cons, toCall]
      · simp [drainGo, succCount, hm]

theorem succCount_le_of_fail (api : Nat → SyncItem → Bool) :
    ∀ (q : List SyncItem) (idx i : Nat) (h : i < q.length),
      api (idx + i) (q.get ⟨i, h⟩) = false → succCount api idx q ≤ i
  | [], _, i, h, _ => absurd h (by simp)
  | m :: rest, idx, 0, h, hf => by
    simp only [List.get] at hf
    simp only [Nat.add_zero] at hf
    simp [succCount, hf]
  | m :: rest, idx, i + 1, h, hf => by
    by_cases hm : api idx m = true
    · have h' : i < rest.length := by simpa using Nat.lt_of_succ_lt_succ h
      have hf' : api ((idx + 1) + i) (rest.get ⟨i, h'⟩) = false := by
        have : (idx + 1) + i = idx + (i + 1) := by omega
        rw [this]
        simpa [List.get] using hf
      have := succCount_le_of_fail api rest (idx + 1) i h' hf'
      simp only [succCount, hm, if_true]
      omega
    · simp [succCount, hm]

/-
Claim theorems for the drain (C4, C1, C10) and the mutation API (C5, C7, C8).
-/

/-- C4: during a drain, queue entries are replayed strictly in FIFO (queue)
order - the calls issued are exactly an initial segment of the queue, in
queue order (all of it when every call succeeds, the successful count plus
the one failing call otherwise), independent of timestamps; each call
completes before the next entry is attempted (drainGo is sequential by
construction, mirroring the awaited loop); and after each successful call
the task whose id the entry's data carries, if still present, is marked
synced (the foldl of markSynced over the successful initial segment). -/
theorem drain_fifo (api : Nat → SyncItem → Bool) (q : List SyncItem) (todos : List Task) :
    succCount api 0 q ≤ q.length ∧
    ((drainGo api 0 q todos).2.2 = true ↔ succCount api 0 q = q.length) ∧
    (drainGo api 0 q todos).1 =
      (q.take (if (drainGo api 0 q todos).2.2 then succCount api 0 q
               else succCount api 0 q + 1)).map toCall ∧
    (drainGo api 0 q todos).2.1 = (q.take (succCount api 0 q)).foldl markSynced todos :=
  drain_fifo_aux api q 0 todos

/-- C1: if any remote call fails during a drain (position i of the queue
rejects), the drain aborts the remaining iteration (at most i + 1 calls are
issued), the queue afterwards is exactly the queue the drain started with
(nothing removed, nothing reordered, and the persisted copies untouched),
the failure toast is shown, and the sync indicator is cleared. -/
theorem drain_failure_atomic (api : Nat → SyncItem → Bool) (s : AppState) (i : Nat)
    (hi : i < s.pendingSync.length) (hon : s.isOnline = true)
    (hf : api i (s.pendingSync.get ⟨i, hi⟩) = false) :
    (syncData api s).pendingSync = s.pendingSync ∧
    (syncData api s).storedPending = s.storedPending ∧
    (syncData api s).storedTodos = s.storedTodos ∧
    (syncData api s).notifications =
      s.notifications ++ [⟨"Sync failed. Will retry later.", .error⟩] ∧
    (syncData api s).syncIndicator = false ∧
    (drainGo api 0 s.pendingSync s.todos).1.length ≤ i + 1 := by
  obtain ⟨h1, h2, h3, h4⟩ := drain_fifo_aux api s.pendingSync 0 s.todos
  have hkle : succCount api 0 s.pendingSync ≤ i := by
    refine succCount_le_of_fail api s.pendingSync 0 i hi ?_
    simpa using hf
  have hklt : succCount api 0 s.pendingSync < s.pendingSync.length :=
    Nat.lt_of_le_of_lt hkle hi
  have hok : (drainGo api 0 s.pendingSync s.todos).2.2 = false := by
    cases hb : (drainGo api 0 s.pendingSync s.todos).2.2
    · rfl
    · exact absurd (h2.mp hb) (Nat.ne_of_lt hklt)
  have hne : s.pendingSync.isEmpty = false := by
    cases hq : s.pendingSync
    · rw [hq] at hi; simp at hi
    · simp
  have hlen : (drainGo api 0 s.pendingSync s.todos).1.length ≤ i + 1 := by
    rw [h3, hok]
    simp only [List.length_map, List.length_take, if_false, Bool.false_eq_true]
    omega
  refine ⟨?_, ?_, ?_, ?_, ?_, hlen⟩ <;>
    simp [syncData, hon, hne, hok, showSyncIndicator, showNotification]

/-- C10: with the repository's always-successful remote client, the failure
branch of the drain is unreachable - a drain invoked online with a non-empty
queue (ids pairwise distinct) terminates with the queue cleared and
persisted empty, the success toast shown, the indicator cleared, and the
collection remapped by anyMark: every task some queue entry references
(with its truthy id) is marked synced, every other task untouched. -/
theorem drain_success_total (api : Nat → SyncItem → Bool) (s : AppState)
    (hapi : goodApi api) (hon : s.isOnline = true) (hne : s.pendingSync ≠ [])
    (hd : distinctIds s.todos) :
    syncData api s =
      { s with
        todos := s.todos.map (anyMark s.pendingSync)
        pendingSync := []
        storedTodos := s.todos.map (anyMark s.pendingSync)
        storedPending := []
        notifications := s.notifications ++ [⟨"Sync completed successfully!", .success⟩]
        syncIndicator := false } ∧
    ∀ t ∈ s.todos, 0 < t.id → (∃ m ∈ s.pendingSync, m.data.id = t.id) →
      (anyMark s.pendingSync t).syncStatus = .synced := by
  constructor
  · have hemp : s.pendingSync.isEmpty = false := by
      cases hq : s.pendingSync
      · exact absurd hq hne
      · simp
    have hfold := foldl_markSynced_eq_map s.pendingSync s.todos hd
    simp [syncData, hon, hemp, drainGo_good hapi, hfold, showSyncIndicator,
      showNotification, saveTodos, savePendingSync]
  · intro t ht hpos ⟨m, hm, hid⟩
    have hne0 : m.data.id ≠ 0 := by omega
    have hany : (s.pendingSync.any fun m' => m'.data.id != 0 && t.id == m'.data.id) = true := by
      refine List.any_eq_true.mpr ⟨m, hm, ?_⟩
      simp only [Bool.and_eq_true, bne_iff_ne, beq_iff_eq]
      exact ⟨hne0, hid.symm⟩
    simp [anyMark, hany]

/-- C5: creating a task from text with non-empty trimmed value builds a
task with completed false and syncStatus synced exactly when online,
inserts it at the front of the collection, and, when offline, appends
exactly one create mutation carrying the full task snapshot to the end of
the queue (none when online). -/
theorem addTodo_spec (s : AppState) (now : Nat) (input : String) (h : jsTrim input ≠ "") :
    ∃ t : Task,
      (addTodo s now input).todos = t :: s.todos ∧
      t.id = now ∧ t.text = jsTrim input ∧ t.completed = false ∧
      t.syncStatus = (if s.isOnline then .synced else .pending) ∧
      (addTodo s now input).pendingSync =
        (if s.isOnline then s.pendingSync
         else s.pendingSync ++ [⟨now, .create, .task t, now⟩]) ∧
      (addTodo s now input).isOnline = s.isOnline := by
  refine ⟨mkTodo now (jsTrim input) s.isOnline, ?_, rfl, rfl, rfl, rfl, ?_, ?_⟩ <;>
    cases ho : s.isOnline <;>
      simp [addTodo, h, ho, mkTodo, saveTodos, addToPendingSync, savePendingSync]

/-- C7: for text whose trimmed value is empty, addTodo and saveEdit are
silent no-ops - the whole state (collection, queue, stores, notifications)
is returned unchanged. -/
theorem empty_text_noop (s : AppState) (now id : Nat) (input : String)
    (h : jsTrim input = "") :
    addTodo s now input = s ∧ saveEdit s now id input = s := by
  constructor
  · simp [addTodo, h]
  · unfold saveEdit
    cases hf : s.todos.find? (fun t => t.id == id)
    · rfl
    · simp [h]

/-- C8: invoking the drain while offline or with an empty queue returns the
state unchanged - no queue change, no store write, no notification, no
indicator change. -/
theorem syncData_noop (api : Nat → SyncItem → Bool) (s : AppState)
    (h : s.isOnline = false ∨ s.pendingSync = []) :
    syncData api s = s := by
  rcases h with h | h <;> simp [syncData, h]

/-
Witnesses for the hypothesis-carrying theorems above.
-/

theorem drain_failure_atomic_witness :
    (syncData (fun i _ => i == 0)
      ⟨[], [⟨1, .create, .idOnly 7, 1⟩, ⟨2, .update, .idOnly 8, 2⟩, ⟨3, .delete, .idOnly 9, 3⟩],
        true, [], [], [], false⟩).pendingSync =
      [⟨1, .create, .idOnly 7, 1⟩, ⟨2, .update, .idOnly 8, 2⟩, ⟨3, .delete, .idOnly 9, 3⟩] :=
  (drain_failure_atomic (fun i _ => i == 0)
    ⟨[], [⟨1, .create, .idOnly 7, 1⟩, ⟨2, .update, .idOnly 8, 2⟩, ⟨3, .delete, .idOnly 9, 3⟩],
      true, [], [], [], false⟩ 1 (by decide) rfl (by decide)).1

theorem drain_success_total_witness :
    syncData (fun _ _ => true)
      ⟨[⟨5, "a", false, 5, 5, .pending⟩],
        [⟨5, .create, .task ⟨5, "a", false, 5, 5, .pending⟩, 5⟩], true, [], [], [], false⟩ =
      ⟨[⟨5, "a", false, 5, 5, .synced⟩], [], true, [⟨5, "a", false, 5, 5, .synced⟩], [],
        [⟨"Sync completed successfully!", .success⟩], false⟩ := by
  have h := (drain_success_total (fun _ _ => true)
    ⟨[⟨5, "a", false, 5, 5, .pending⟩],
      [⟨5, .create, .task ⟨5, "a", false, 5, 5, .pending⟩, 5⟩], true, [], [], [], false⟩
    (fun _ _ => rfl) rfl (by decide) (by decide)).1
  rw [h]
  rfl

theorem addTodo_spec_witness :
    ∃ t : Task,
      (addTodo (initState false) 3 " milk ").todos = t :: (initState false).todos ∧
      t.id = 3 ∧ t.text = jsTrim " milk " ∧ t.completed = false ∧
      t.syncStatus = (if (initState false).isOnline then .synced else .pending) ∧
      (addTodo (initState false) 3 " milk ").pendingSync =
        (if (initState false).isOnline then (initState false).pendingSync
         else (initState false).pendingSync ++ [⟨3, .create, .task t, 3⟩]) ∧
      (addTodo (initState false) 3 " milk ").isOnline = (initState false).isOnline :=
  addTodo_spec (initState false) 3 " milk " (by decide)

theorem empty_text_noop_witness :
    addTodo (initState true) 9 "   " = initState true ∧
      saveEdit (initState true) 9 4 "   " = initState true :=
  empty_text_noop (initState true) 9 4 "   " (by decide)

theorem syncData_noop_witness :
    syncData (fun _ _ => true) (initState true) = initState true :=
  syncData_noop (fun _ _ => true) (initState true) (Or.inr rfl)

/-
Field-computation and transport lemmas for the reachability invariants
(claims C2 and C6).
-/

theorem replaceTodo_fields (s : AppState) (now id : Nat) (t1 : Task) :
    (replaceTodo s now id t1).todos = updateFirst (fun t => t.id == id) (fun _ => t1) s.todos ∧
    (replaceTodo s now id t1).pendingSync =
      (if s.isOnline then s.pendingSync
       else s.pendingSync ++ [⟨now, .update, .task t1, now⟩]) ∧
    (replaceTodo s now id t1).isOnline = s.isOnline := by
  cases ho : s.isOnline <;>
    simp [replaceTodo, ho, saveTodos, addToPendingSync, savePendingSync]

theorem addTodo_fields (s : AppState) (now : Nat) (input : String) (h : jsTrim input ≠ "") :
    (addTodo s now input).todos = mkTodo now (jsTrim input) s.isOnline :: s.todos ∧
    (addTodo s now input).pendingSync =
      (if s.isOnline then s.pendingSync
       else s.pendingSync ++
         [⟨now, .create, .task (mkTodo now (jsTrim input) s.isOnline), now⟩]) ∧
    (addTodo s now input).isOnline = s.isOnline := by
  cases ho : s.isOnline <;>
    simp [addTodo, h, ho, saveTodos, addToPendingSync, savePendingSync, mkTodo]

theorem deleteTodo_fields (s : AppState) (now id : Nat) (t0 : Task)
    (hf : s.todos.find? (fun t => t.id == id) = some t0) :
    (deleteTodo s now id).todos = s.todos.filter (fun t => t.id != id) ∧
    (deleteTodo s now id).pendingSync =
      (if s.isOnline then s.pendingSync
       else s.pendingSync ++ [⟨now, .delete, .idOnly id, now⟩]) ∧
    (deleteTodo s now id).isOnline = s.isOnline := by
  cases ho : s.isOnline <;>
    simp [deleteTodo, hf, ho, saveTodos, addToPendingSync, savePendingSync]

theorem syncData_good_fields (api : Nat → SyncItem → Bool) (s : AppState)
    (hapi : goodApi api) (hon : s.isOnline = true) (hq : s.pendingSync ≠ [])
    (hd : distinctIds s.todos) :
    (syncData api s).todos = s.todos.map (anyMark s.pendingSync) ∧
    (syncData api s).pendingSync = [] ∧
    (syncData api s).isOnline = true := by
  have hemp : s.pendingSync.isEmpty = false := by
    cases hqq : s.pendingSync
    · exact absurd hqq hq
    · simp
  simp [syncData, hon, hemp, drainGo_good hapi, foldl_markSynced_eq_map s.pendingSync s.todos hd,
    showSyncIndicator, showNotification, saveTodos, savePendingSync]

theorem anyMark_id (q : List SyncItem) (t : Task) : (anyMark q t).id = t.id := by
  unfold anyMark
  split <;> rfl

theorem map_id_of_pointwise {l : List Task} {g : Task → Task}
    (h : ∀ t ∈ l, (g t).id = t.id) : (l.map g).map Task.id = l.map Task.id := by
  rw [List.map_map]
  exact List.map_congr_left h

theorem pairwiseIds_of_map_id_eq {R : Nat → Nat → Prop} {l l' : List Task}
    (h : l'.map Task.id = l.map Task.id)
    (hp : l.Pairwise fun a b => R a.id b.id) : l'.Pairwise fun a b => R a.id b.id := by
  have h1 : (l.map Task.id).Pairwise R := List.pairwise_map.mpr hp
  rw [← h] at h1
  exact List.pairwise_map.mp h1

theorem ids_lt_of_map_id_eq {l l' : List Task} {c : Nat}
    (h : l'.map Task.id = l.map Task.id)
    (hb : ∀ t ∈ l, 0 < t.id ∧ t.id < c) : ∀ t ∈ l', 0 < t.id ∧ t.id < c := by
  intro t ht
  have hmem : t.id ∈ l.map Task.id := by
    rw [← h]
    exact List.mem_map_of_mem Task.id ht
  obtain ⟨t0, ht0, hid⟩ := List.mem_map.mp hmem
  rw [← hid]
  exact hb t0 ht0

theorem toggleTodo_todos_map_id (s : AppState) (now id : Nat) :
    (toggleTodo s now id).todos.map Task.id = s.todos.map Task.id := by
  unfold toggleTodo
  cases hf : s.todos.find? (fun t => t.id == id)
  · rfl
  · case some t0 =>
    have ht0 := List.find?_some hf
    have hid0 : t0.id = id := by simpa using ht0
    rw [(replaceTodo_fields s now id (toggledTask t0 now s.isOnline)).1]
    refine map_updateFirst Task.id _ _ ?_ s.todos
    intro x hx
    have hx' : x.id = id := by simpa using hx
    simp [toggledTask, hid0, hx']

theorem saveEdit_todos_map_id (s : AppState) (now id : Nat) (newText : String) :
    (saveEdit s now id newText).todos.map Task.id = s.todos.map Task.id := by
  unfold saveEdit
  cases hf : s.todos.find? (fun t => t.id == id)
  · rfl
  · case some t0 =>
    have ht0 := List.find?_some hf
    have hid0 : t0.id = id := by simpa using ht0
    by_cases htr : jsTrim newText = ""
    · simp [htr]
    · simp only [htr, if_false]
      rw [(replaceTodo_fields s now id (editedTask t0 now (jsTrim newText) s.isOnline)).1]
      refine map_updateFirst Task.id _ _ ?_ s.todos
      intro x hx
      have hx' : x.id = id := by simpa using hx
      simp [editedTask, hid0, hx']

theorem syncData_todos_map_id (api : Nat → SyncItem → Bool) (s : AppState) :
    (syncData api s).todos.map Task.id = s.todos.map Task.id := by
  unfold syncData
  by_cases hg : (!s.isOnline || s.pendingSync.isEmpty) = true
  · simp [hg]
  · simp only [hg, if_false, Bool.false_eq_true]
    cases hok : (drainGo api 0 s.pendingSync s.todos).2.2 <;>
      simp [hok, showSyncIndicator, showNotification, saveTodos, savePendingSync,
        drainGo_map_id api s.pendingSync 0 s.todos]

theorem deleteTodo_todos_sublist (s : AppState) (now id : Nat) :
    (deleteTodo s now id).todos.Sublist s.todos := by
  unfold deleteTodo
  cases hf : s.todos.find? (fun t => t.id == id)
  · exact List.Sublist.refl _
  · simp only [saveTodos]
    cases ho : s.isOnline <;>
      simp [addToPendingSync, savePendingSync, ho, List.filter_sublist]

/-
Preservation of InvC2 and boundedBy by each operation.
-/

theorem invc2_replace (s : AppState) (now id : Nat) (t0 t1 : Task) (c : Nat)
    (hf : s.todos.find? (fun t => t.id == id) = some t0)
    (hid1 : t1.id = id)
    (hst : t1.syncStatus = (if s.isOnline then SyncStatus.synced else SyncStatus.pending))
    (hI : InvC2 s) (hB : boundedBy s c) :
    InvC2 (replaceTodo s now id t1) ∧ boundedBy (replaceTodo s now id t1) c := by
  obtain ⟨hon, hd, hc⟩ := hI
  obtain ⟨hbt, hbq⟩ := hB
  obtain ⟨hto, hpq, hio⟩ := replaceTodo_fields s now id t1
  have ht0 := List.find?_some hf
  have hid0 : t0.id = id := by simpa using ht0
  have ht0mem : t0 ∈ s.todos := List.mem_of_find?_eq_some hf
  have hmap : updateFirst (fun t => t.id == id) (fun _ => t1) s.todos =
      s.todos.map fun t => if t.id == id then t1 else t :=
    updateFirst_eq_map_of_distinct id (fun _ => t1) s.todos hd
  have hgid : ∀ t ∈ s.todos, ((fun t => if t.id == id then t1 else t) t).id = t.id := by
    intro t ht
    by_cases hti : (t.id == id) = true
    · have hti' : t.id = id := by simpa using hti
      simp [hti, hid1, hti']
    · simp [hti]
  have hmapid : (replaceTodo s now id t1).todos.map Task.id = s.todos.map Task.id := by
    rw [hto, hmap]
    exact map_id_of_pointwise hgid
  have hd' : distinctIds (replaceTodo s now id t1).todos :=
    distinctIds_of_map_id_eq hmapid hd
  refine ⟨⟨?_, hd', ?_⟩, ids_lt_of_map_id_eq hmapid hbt, ?_⟩
  · intro ho
    rw [hio] at ho
    rw [hpq, ho, if_pos rfl]
    exact hon ho
  · intro y hy
    rw [hto, hmap] at hy
    obtain ⟨t, htmem, hty⟩ := List.mem_map.mp hy
    by_cases hti : (t.id == id) = true
    · rw [if_pos hti] at hty
      subst hty
      cases ho : s.isOnline
      · rw [hpq, ho, if_neg (by simp)]
        constructor
        · intro _
          exact ⟨⟨now, .update, .task t1, now⟩, by simp, by simp [SyncData.id, hid1]⟩
        · intro _
          rw [hst, ho]
          simp
      · have hq0 : s.pendingSync = [] := hon ho
        rw [hpq, ho, if_pos rfl, hq0]
        constructor
        · intro hp
          rw [hst, ho] at hp
          simp at hp
        · intro hm
          obtain ⟨m, hm, _⟩ := hm
          simp at hm
    · have hne : t.id ≠ id := by simpa using hti
      rw [if_neg hti] at hty
      subst hty
      have hpre := hc t htmem
      cases ho : s.isOnline
      · rw [hpq, ho, if_neg (by simp)]
        constructor
        · intro hp
          obtain ⟨m, hm, hmid⟩ := hpre.mp hp
          exact ⟨m, List.mem_append.mpr (Or.inl hm), hmid⟩
        · intro hm
          obtain ⟨m, hm, hmid⟩ := hm
          rcases List.mem_append.mp hm with hmq | hme
          · exact hpre.mpr ⟨m, hmq, hmid⟩
          · rw [List.mem_singleton.mp hme] at hmid
            simp [SyncData.id, hid1] at hmid
            exact absurd hmid hne.symm
      · rw [hpq, ho, if_pos rfl]
        exact hpre
  · intro m hm
    rw [hpq] at hm
    cases ho : s.isOnline
    · rw [ho, if_neg (by simp)] at hm
      rcases List.mem_append.mp hm with hmq | hme
      · exact hbq m hmq
      · rw [List.mem_singleton.mp hme]
        simp only [SyncData.id, hid1]
        rw [← hid0]
        exact hbt t0 ht0mem
    · rw [ho, if_pos rfl] at hm
      exact hbq m hm

theorem boundedBy_mono {s : AppState} {c c' : Nat} (h : boundedBy s c) (hcc : c ≤ c') :
    boundedBy s c' := by
  obtain ⟨h1, h2⟩ := h
  refine ⟨fun t ht => ⟨(h1 t ht).1, ?_⟩, fun m hm => ⟨(h2 m hm).1, ?_⟩⟩
  · exact Nat.lt_of_lt_of_le (h1 t ht).2 hcc
  · exact Nat.lt_of_lt_of_le (h2 m hm).2 hcc

theorem invc2_add (s : AppState) (now : Nat) (input : String) (c : Nat)
    (hcn : c ≤ now) (h0 : 0 < c) (hI : InvC2 s) (hB : boundedBy s c) :
    InvC2 (addTodo s now input) ∧ boundedBy (addTodo s now input) (now + 1) := by
  obtain ⟨hon, hd, hc⟩ := hI
  obtain ⟨hbt, hbq⟩ := hB
  by_cases htr : jsTrim input = ""
  · have he : addTodo s now input = s := by simp [addTodo, htr]
    rw [he]
    exact ⟨⟨hon, hd, hc⟩, boundedBy_mono ⟨hbt, hbq⟩ (by omega)⟩
  · obtain ⟨hto, hpq, hio⟩ := addTodo_fields s now input htr
    have htid : (mkTodo now (jsTrim input) s.isOnline).id = now := rfl
    have hfresh : ∀ t ∈ s.todos, now ≠ t.id := by
      intro t ht
      have := (hbt t ht).2
      omega
    refine ⟨⟨?_, ?_, ?_⟩, ?_, ?_⟩
    · intro ho
      rw [hio] at ho
      rw [hpq, ho, if_pos rfl]
      exact hon ho
    · rw [hto]
      unfold distinctIds
      refine List.pairwise_cons.mpr ⟨?_, hd⟩
      intro t ht
      rw [htid]
      exact hfresh t ht
    · intro y hy
      rw [hto] at hy
      rcases List.mem_cons.mp hy with hy1 | hy2
      · subst hy1
        cases ho : s.isOnline
        · rw [hpq, ho, if_neg (by simp)]
          constructor
          · intro _
            exact ⟨_, List.mem_append.mpr (Or.inr (List.mem_singleton.mpr rfl)), rfl⟩
          · intro _
            simp [mkTodo, ho]
        · have hq0 := hon ho
          rw [hpq, ho, if_pos rfl, hq0]
          constructor
          · intro hp
            simp [mkTodo, ho] at hp
          · intro hm
            obtain ⟨m, hm, _⟩ := hm
            simp at hm
      · have hpre := hc y hy2
        cases ho : s.isOnline
        · rw [hpq, ho, if_neg (by simp)]
          constructor
          · intro hp
            obtain ⟨m, hm, hmid⟩ := hpre.mp hp
            exact ⟨m, List.mem_append.mpr (Or.inl hm), hmid⟩
          · intro hm
            obtain ⟨m, hm, hmid⟩ := hm
            rcases List.mem_append.mp hm with hmq | hme
            · exact hpre.mpr ⟨m, hmq, hmid⟩
            · rw [List.mem_singleton.mp hme] at hmid
              simp [SyncData.id, htid] at hmid
              exact absurd hmid (hfresh y hy2)
        · rw [hpq, ho, if_pos rfl]
          exact hpre
    · intro t ht
      rw [hto] at ht
      rcases List.mem_cons.mp ht with h1 | h2
      · subst h1
        exact ⟨(by omega : 0 < now), (by omega : now < now + 1)⟩
      · have := hbt t h2
        omega
    · intro m hm
      rw [hpq] at hm
      cases ho : s.isOnline
      · rw [ho, if_neg (by simp)] at hm
        rcases List.mem_append.mp hm with hmq | hme
        · have := hbq m hmq
          omega
        · rw [List.mem_singleton.mp hme]
          exact ⟨(by omega : 0 < now), (by omega : now < now + 1)⟩
      · rw [ho, if_pos rfl] at hm
        have := hbq m hm
        omega

theorem invc2_delete (s : AppState) (now id : Nat) (c : Nat)
    (hI : InvC2 s) (hB : boundedBy s c) :
    InvC2 (deleteTodo s now id) ∧ boundedBy (deleteTodo s now id) c := by
  obtain ⟨hon, hd, hc⟩ := hI
  obtain ⟨hbt, hbq⟩ := hB
  cases hf : s.todos.find? (fun t => t.id == id)
  · have he : deleteTodo s now id = s := by simp [deleteTodo, hf]
    rw [he]
    exact ⟨⟨hon, hd, hc⟩, hbt, hbq⟩
  · case some t0 =>
    have hid0 : t0.id = id := by simpa using List.find?_some hf
    have ht0mem := List.mem_of_find?_eq_some hf
    obtain ⟨hto, hpq, hio⟩ := deleteTodo_fields s now id t0 hf
    have hsub : (s.todos.filter (fun t => t.id != id)).Sublist s.todos :=
      List.filter_sublist _
    have hmem : ∀ y ∈ s.todos.filter (fun t => t.id != id), y ∈ s.todos ∧ y.id ≠ id := by
      intro y hy
      have hmf := List.mem_filter.mp hy
      exact ⟨hmf.1, by simpa using hmf.2⟩
    refine ⟨⟨?_, ?_, ?_⟩, ?_, ?_⟩
    · intro ho
      rw [hio] at ho
      rw [hpq, ho, if_pos rfl]
      exact hon ho
    · rw [hto]
      unfold distinctIds at hd ⊢
      exact hd.sublist hsub
    · intro y hy
      rw [hto] at hy
      obtain ⟨hymem, hyne⟩ := hmem y hy
      have hpre := hc y hymem
      cases ho : s.isOnline
      · rw [hpq, ho, if_neg (by simp)]
        constructor
        · intro hp
          obtain ⟨m, hm, hmid⟩ := hpre.mp hp
          exact ⟨m, List.mem_append.mpr (Or.inl hm), hmid⟩
        · intro hm
          obtain ⟨m, hm, hmid⟩ := hm
          rcases List.mem_append.mp hm with hmq | hme
          · exact hpre.mpr ⟨m, hmq, hmid⟩
          · rw [List.mem_singleton.mp hme] at hmid
            simp [SyncData.id] at hmid
            exact absurd hmid hyne.symm
      · rw [hpq, ho, if_pos rfl]
        exact hpre
    · intro t ht
      rw [hto] at ht
      exact hbt t (hmem t ht).1
    · intro m hm
      rw [hpq] at hm
      cases ho : s.isOnline
      · rw [ho, if_neg (by simp)] at hm
        rcases List.mem_append.mp hm with hmq | hme
        · exact hbq m hmq
        · rw [List.mem_singleton.mp hme]
          simp only [SyncData.id]
          rw [← hid0]
          exact hbt t0 ht0mem
      · rw [ho, if_pos rfl] at hm
        exact hbq m hm

theorem invc2_toggle (s : AppState) (now id : Nat) (c : Nat)
    (hI : InvC2 s) (hB : boundedBy s c) :
    InvC2 (toggleTodo s now id) ∧ boundedBy (toggleTodo s now id) c := by
  cases hf : s.todos.find? (fun t => t.id == id)
  · have he : toggleTodo s now id = s := by simp [toggleTodo, hf]
    rw [he]
    exact ⟨hI, hB⟩
  · case some t0 =>
    have he : toggleTodo s now id = replaceTodo s now id (toggledTask t0 now s.isOnline) := by
      simp [toggleTodo, hf]
    rw [he]
    refine invc2_replace s now id t0 _ c hf ?_ rfl hI hB
    have hid0 : t0.id = id := by simpa using List.find?_some hf
    simpa [toggledTask] using hid0

theorem invc2_edit (s : AppState) (now id : Nat) (newText : String) (c : Nat)
    (hI : InvC2 s) (hB : boundedBy s c) :
    InvC2 (saveEdit s now id newText) ∧ boundedBy (saveEdit s now id newText) c := by
  cases hf : s.todos.find? (fun t => t.id == id)
  · have he : saveEdit s now id newText = s := by simp [saveEdit, hf]
    rw [he]
    exact ⟨hI, hB⟩
  · case some t0 =>
    by_cases htr : jsTrim newText = ""
    · have he : saveEdit s now id newText = s := by simp [saveEdit, hf, htr]
      rw [he]
      exact ⟨hI, hB⟩
    · have he : saveEdit s now id newText =
          replaceTodo s now id (editedTask t0 now (jsTrim newText) s.isOnline) := by
        simp [saveEdit, hf, htr]
      rw [he]
      refine invc2_replace s now id t0 _ c hf ?_ rfl hI hB
      have hid0 : t0.id = id := by simpa using List.find?_some hf
      simpa [editedTask] using hid0

theorem invc2_drain (api : Nat → SyncItem → Bool) (s : AppState) (c : Nat)
    (hapi : goodApi api) (hd : distinctIds s.todos) (hcons : statusConsistent s)
    (hB : boundedBy s c) :
    InvC2 (syncData api s) ∧ boundedBy (syncData api s) c := by
  by_cases hguard : s.isOnline = false ∨ s.pendingSync = []
  · rw [syncData_noop api s hguard]
    refine ⟨⟨?_, hd, hcons⟩, hB⟩
    intro ho
    rcases hguard with h | h
    · rw [ho] at h
      cases h
    · exact h
  · have hon : s.isOnline = true := by
      cases h : s.isOnline
      · exact absurd (Or.inl h) hguard
      · rfl
    have hq : s.pendingSync ≠ [] := fun h => hguard (Or.inr h)
    obtain ⟨hto, hpq, hio⟩ := syncData_good_fields api s hapi hon hq hd
    have hmapid : (syncData api s).todos.map Task.id = s.todos.map Task.id := by
      rw [hto]
      exact map_id_of_pointwise fun t _ => anyMark_id s.pendingSync t
    refine ⟨⟨fun _ => hpq, distinctIds_of_map_id_eq hmapid hd, ?_⟩,
      ids_lt_of_map_id_eq hmapid hB.1, ?_⟩
    · intro y hy
      rw [hto] at hy
      obtain ⟨t, htmem, hty⟩ := List.mem_map.mp hy
      rw [hpq]
      constructor
      · intro hp
        exfalso
        subst hty
        by_cases ha :
            (s.pendingSync.any fun m => m.data.id != 0 && t.id == m.data.id) = true
        · have hmk : anyMark s.pendingSync t = { t with syncStatus := .synced } := by
            rw [anyMark, if_pos ha]
          rw [hmk] at hp
          simp at hp
        · have hmk : anyMark s.pendingSync t = t := by
            rw [anyMark, if_neg ha]
          rw [hmk] at hp
          obtain ⟨m, hm, hmid⟩ := (hcons t htmem).mp hp
          refine ha (List.any_eq_true.mpr ⟨m, hm, ?_⟩)
          simp only [Bool.and_eq_true, bne_iff_ne, beq_iff_eq]
          have hmpos := (hB.2 m hm).1
          exact ⟨by omega, hmid.symm⟩
      · intro hm
        obtain ⟨m, hm, _⟩ := hm
        simp at hm
    · intro m hm
      rw [hpq] at hm
      simp at hm

/-- Induction over a trace: the invariant InvC2 holds after every
well-clocked run of operations whose drains use an always-succeeding
remote client. -/
theorem invc2_run : ∀ (ops : List Op) (s : AppState) (c : Nat),
    InvC2 s → boundedBy s c → 0 < c → clocksOk c ops = true →
    (∀ op ∈ ops, OpGood op) → InvC2 (runOps s ops)
  | [], _, _, hI, _, _, _, _ => hI
  | op :: rest, s, c, hI, hB, h0, hck, hg => by
    have hgrest : ∀ o ∈ rest, OpGood o := fun o ho => hg o (List.mem_cons_of_mem op ho)
    have hrun : runOps s (op :: rest) = runOps (applyOp s op) rest := rfl
    rw [hrun]
    cases op with
    | add now text =>
      have hck' : c ≤ now ∧ clocksOk (now + 1) rest = true := by
        simpa [clocksOk, opClock, Bool.and_eq_true, decide_eq_true_eq] using hck
      obtain ⟨hI', hB'⟩ := invc2_add s now text c hck'.1 h0 hI hB
      exact invc2_run rest _ (now + 1) hI' hB' (by omega) hck'.2 hgrest
    | toggle now id =>
      have hck' : c ≤ now ∧ clocksOk (now + 1) rest = true := by
        simpa [clocksOk, opClock, Bool.and_eq_true, decide_eq_true_eq] using hck
      obtain ⟨hI', hB'⟩ := invc2_toggle s now id c hI hB
      exact invc2_run rest _ (now + 1) hI' (boundedBy_mono hB' (by omega)) (by omega)
        hck'.2 hgrest
    | del now id =>
      have hck' : c ≤ now ∧ clocksOk (now + 1) rest = true := by
        simpa [clocksOk, opClock, Bool.and_eq_true, decide_eq_true_eq] using hck
      obtain ⟨hI', hB'⟩ := invc2_delete s now id c hI hB
      exact invc2_run rest _ (now + 1) hI' (boundedBy_mono hB' (by omega)) (by omega)
        hck'.2 hgrest
    | edit now id text =>
      have hck' : c ≤ now ∧ clocksOk (now + 1) rest = true := by
        simpa [clocksOk, opClock, Bool.and_eq_true, decide_eq_true_eq] using hck
      obtain ⟨hI', hB'⟩ := invc2_edit s now id text c hI hB
      exact invc2_run rest _ (now + 1) hI' (boundedBy_mono hB' (by omega)) (by omega)
        hck'.2 hgrest
    | goOffline =>
      have hck' : clocksOk c rest = true := by simpa [clocksOk, opClock] using hck
      have hI' : InvC2 { s with isOnline := false } := by
        obtain ⟨_, hd, hc⟩ := hI
        exact ⟨fun h => Bool.noConfusion h, hd, hc⟩
      exact invc2_run rest _ c hI' hB h0 hck' hgrest
    | goOnline api =>
      have hck' : clocksOk c rest = true := by simpa [clocksOk, opClock] using hck
      have hgop : goodApi api := hg _ (List.mem_cons_self _ _)
      obtain ⟨hI', hB'⟩ :=
        invc2_drain api { s with isOnline := true } c hgop hI.2.1 hI.2.2 hB
      exact invc2_run rest _ c hI' hB' h0 hck' hgrest
    | sync api =>
      have hck' : clocksOk c rest = true := by simpa [clocksOk, opClock] using hck
      have hgop : goodApi api := hg _ (List.mem_cons_self _ _)
      obtain ⟨hI', hB'⟩ := invc2_drain api s c hgop hI.2.1 hI.2.2 hB
      exact invc2_run rest _ c hI' hB' h0 hck' hgrest

/-- C2 counterexample: the syncStatus/queue iff does NOT survive a drain in
which a later call fails.  Offline, create task 1 then toggle it (queue
holds two entries for id 1, task pending); go online with a client whose
second call rejects: the first call marks the task synced, the abort keeps
both queue entries, so a synced task coexists with queue entries bearing
its id. -/
theorem status_consistency_counterexample :
    ¬ statusConsistent (runOps (initState true)
      [Op.goOffline, Op.add 1 "a", Op.toggle 2 1, Op.goOnline fun i _ => i == 0]) := by
  decide

/-- C2 (amended): for every well-clocked trace (Date.now strictly
increasing across mutation operations, as positive values) in which every
drain's remote calls all succeed - in particular the repository's own
simulateApiCall - every reachable state satisfies status consistency:
a task's syncStatus is pending iff some queue entry's data.id equals its
id.  A drain aborted by a mid-queue failure breaks the invariant (see the
counterexample), which the spec itself concedes in its mid-drain edge-case
policy. -/
theorem status_consistency_good_runs (ops : List Op) (online : Bool)
    (hck : clocksOk 1 ops = true) (hg : ∀ op ∈ ops, OpGood op) :
    statusConsistent (runOps (initState online) ops) := by
  have hI : InvC2 (initState online) := by
    refine ⟨fun _ => rfl, ?_, ?_⟩
    · exact List.Pairwise.nil
    · intro t ht
      exact absurd ht (List.not_mem_nil t)
  have hB : boundedBy (initState online) 1 :=
    ⟨fun t ht => absurd ht (List.not_mem_nil t), fun m hm => absurd hm (List.not_mem_nil m)⟩
  exact (invc2_run ops (initState online) 1 hI hB Nat.one_pos hck hg).2.2

theorem status_consistency_good_runs_witness :
    statusConsistent (runOps (initState true)
      [Op.goOffline, Op.add 1 "a", Op.goOnline fun _ _ => true]) :=
  status_consistency_good_runs [Op.goOffline, Op.add 1 "a", Op.goOnline fun _ _ => true] true
    (by decide)
    (by
      intro op hop
      simp only [List.mem_cons, List.not_mem_nil, or_false] at hop
      rcases hop with rfl | rfl | rfl
      · trivial
      · trivial
      · exact fun i m => rfl)

/-
Machinery for claim C6: id uniqueness and newest-first ordering under a
strictly increasing clock.
-/

theorem ids6_same {s' : AppState} (s : AppState) (c : Nat)
    (hmap : s'.todos.map Task.id = s.todos.map Task.id)
    (hb : ∀ t ∈ s.todos, t.id < c)
    (hp : (s.todos.map Task.id).Pairwise (· > ·)) :
    (∀ t ∈ s'.todos, t.id < c) ∧ ((s'.todos.map Task.id).Pairwise (· > ·)) := by
  constructor
  · intro t ht
    have hmem : t.id ∈ s.todos.map Task.id := by
      rw [← hmap]
      exact List.mem_map_of_mem Task.id ht
    obtain ⟨t0, h0, hid⟩ := List.mem_map.mp hmem
    rw [← hid]
    exact hb t0 h0
  · rw [hmap]
    exact hp

theorem ids6_add (s : AppState) (now : Nat) (input : String) (c : Nat)
    (hcn : c ≤ now) (hb : ∀ t ∈ s.todos, t.id < c)
    (hp : (s.todos.map Task.id).Pairwise (· > ·)) :
    (∀ t ∈ (addTodo s now input).todos, t.id < now + 1) ∧
    (((addTodo s now input).todos.map Task.id).Pairwise (· > ·)) := by
  by_cases htr : jsTrim input = ""
  · have he : addTodo s now input = s := by simp [addTodo, htr]
    rw [he]
    exact ⟨fun t ht => by have := hb t ht; omega, hp⟩
  · obtain ⟨hto, _, _⟩ := addTodo_fields s now input htr
    rw [hto]
    constructor
    · intro t ht
      rcases List.mem_cons.mp ht with h1 | h2
      · subst h1
        exact (by omega : now < now + 1)
      · have := hb t h2
        omega
    · rw [List.map_cons]
      refine List.pairwise_cons.mpr ⟨?_, hp⟩
      intro b hbmem
      obtain ⟨t, htmem, hid⟩ := List.mem_map.mp hbmem
      have hlt := hb t htmem
      rw [← hid]
      exact (by omega : now > t.id)

theorem ids6_sub (s s' : AppState) (c : Nat) (hsub : s'.todos.Sublist s.todos)
    (hb : ∀ t ∈ s.todos, t.id < c)
    (hp : (s.todos.map Task.id).Pairwise (· > ·)) :
    (∀ t ∈ s'.todos, t.id < c) ∧ ((s'.todos.map Task.id).Pairwise (· > ·)) := by
  constructor
  · intro t ht
    exact hb t (hsub.subset ht)
  · exact hp.sublist (hsub.map Task.id)

theorem run_ids_aux : ∀ (ops : List Op) (s : AppState) (c : Nat),
    (∀ t ∈ s.todos, t.id < c) → ((s.todos.map Task.id).Pairwise (· > ·)) →
    clocksOk c ops = true →
    ((runOps s ops).todos.map Task.id).Pairwise (· > ·)
  | [], _, _, _, hp, _ => hp
  | op :: rest, s, c, hb, hp, hck => by
    have hrun : runOps s (op :: rest) = runOps (applyOp s op) rest := rfl
    rw [hrun]
    cases op with
    | add now text =>
      have hck' : c ≤ now ∧ clocksOk (now + 1) rest = true := by
        simpa [clocksOk, opClock, Bool.and_eq_true, decide_eq_true_eq] using hck
      obtain ⟨hb', hp'⟩ := ids6_add s now text c hck'.1 hb hp
      exact run_ids_aux rest _ (now + 1) hb' hp' hck'.2
    | toggle now id =>
      have hck' : c ≤ now ∧ clocksOk (now + 1) rest = true := by
        simpa [clocksOk, opClock, Bool.and_eq_true, decide_eq_true_eq] using hck
      obtain ⟨hb', hp'⟩ := ids6_same s c (toggleTodo_todos_map_id s now id) hb hp
      exact run_ids_aux rest _ (now + 1) (fun t ht => by have := hb' t ht; omega) hp' hck'.2
    | del now id =>
      have hck' : c ≤ now ∧ clocksOk (now + 1) rest = true := by
        simpa [clocksOk, opClock, Bool.and_eq_true, decide_eq_true_eq] using hck
      obtain ⟨hb', hp'⟩ := ids6_sub s (deleteTodo s now id) c
        (deleteTodo_todos_sublist s now id) hb hp
      exact run_ids_aux rest _ (now + 1) (fun t ht => by have := hb' t ht; omega) hp' hck'.2
    | edit now id text =>
      have hck' : c ≤ now ∧ clocksOk (now + 1) rest = true := by
        simpa [clocksOk, opClock, Bool.and_eq_true, decide_eq_true_eq] using hck
      obtain ⟨hb', hp'⟩ := ids6_same s c (saveEdit_todos_map_id s now id text) hb hp
      exact run_ids_aux rest _ (now + 1) (fun t ht => by have := hb' t ht; omega) hp' hck'.2
    | goOffline =>
      have hck' : clocksOk c rest = true := by simpa [clocksOk, opClock] using hck
      exact run_ids_aux rest _ c hb hp hck'
    | goOnline api =>
      have hck' : clocksOk c rest = true := by simpa [clocksOk, opClock] using hck
      obtain ⟨hb', hp'⟩ := ids6_same s c
        (syncData_todos_map_id api { s with isOnline := true }) hb hp
      exact run_ids_aux rest _ c hb' hp' hck'
    | sync api =>
      have hck' : clocksOk c rest = true := by simpa [clocksOk, opClock] using hck
      obtain ⟨hb', hp'⟩ := ids6_same s c (syncData_todos_map_id api s) hb hp
      exact run_ids_aux rest _ c hb' hp' hck'

/-- C6 counterexample: two creations with the same Date.now value (5)
produce two distinct tasks (their texts differ) carrying the same id, so
ids are not unique for every operation sequence. -/
theorem dup_id_counterexample :
    (runOps (initState true) [Op.add 5 "a", Op.add 5 "b"]).todos =
      [⟨5, "b", false, 5, 5, .synced⟩, ⟨5, "a", false, 5, 5, .synced⟩] ∧
    (⟨5, "b", false, 5, 5, .synced⟩ : Task) ≠ ⟨5, "a", false, 5, 5, .synced⟩ ∧
    Task.id ⟨5, "b", false, 5, 5, .synced⟩ = Task.id ⟨5, "a", false, 5, 5, .synced⟩ :=
  ⟨by decide, by decide, rfl⟩

/-- C6 (amended): provided Date.now strictly increases across operations
(creations at least 1ms apart), task ids are pairwise distinct and the
collection is ordered newest-first: the ids along the collection strictly
decrease, so they sort by creation time. -/
theorem ids_unique_sorted (ops : List Op) (online : Bool) (hck : clocksOk 1 ops = true) :
    ((runOps (initState online) ops).todos.map Task.id).Pairwise (· > ·) :=
  run_ids_aux ops (initState online) 1
    (fun t ht => absurd ht (List.not_mem_nil t)) List.Pairwise.nil hck

theorem ids_unique_sorted_witness :
    ((runOps (initState true) [Op.add 1 "a", Op.add 2 "b"]).todos.map Task.id).Pairwise
      (· > ·) :=
  ids_unique_sorted [Op.add 1 "a", Op.add 2 "b"] true (by decide)

/-
Claim C3: the drain-start discipline over connectivity events.
-/

/-- C3 counterexample: there is no re-entrancy guard.  Starting offline
with one queued entry, a browser online event starts a drain; while it is
still running, an offline signal followed by a second online event starts
a second concurrent drain (two invocations of syncData are in flight at
once over the same queue). -/
theorem double_drain_counterexample :
    (runNet ⟨false, [⟨1, .create, .idOnly 1, 1⟩], 0⟩ [NetEvent.online]).activeDrains = 1 ∧
    (runNet ⟨false, [⟨1, .create, .idOnly 1, 1⟩], 0⟩
      [NetEvent.online, NetEvent.offline, NetEvent.online]).activeDrains = 2 := by
  decide

/-- C3 (amended): a drain is started only by an event arriving when the
resulting effective state is online with a non-empty queue (never while
offline, never with an empty queue), and while the state is already online
a probe completion never starts a drain.  But there is no stronger
re-entrancy guard: after an intervening offline signal, a
connectivity-restoration event during a running drain starts a second
concurrent one (see the counterexample). -/
theorem drain_start_guard (s : EState) (e : NetEvent) :
    ((estep s e).activeDrains ≤ s.activeDrains ∨
      ((estep s e).activeDrains = s.activeDrains + 1 ∧
        (estep s e).isOnline = true ∧ s.queue ≠ [])) ∧
    (∀ ok, s.isOnline = true → (estep s (NetEvent.probe ok)).activeDrains = s.activeDrains) := by
  constructor
  · cases e with
    | online =>
      by_cases hq : s.queue.isEmpty = true
      · left
        simp [estep, hq]
      · right
        refine ⟨by simp [estep, hq], by simp [estep, hq], ?_⟩
        intro hnil
        rw [hnil] at hq
        simp at hq
    | offline =>
      left
      simp [estep]
    | probe ok =>
      cases ok
      · left
        cases ho : s.isOnline <;> simp [estep, ho]
      · cases ho : s.isOnline
        · by_cases hq : s.queue.isEmpty = true
          · left
            simp [estep, ho, hq]
          · right
            refine ⟨by simp [estep, ho, hq], by simp [estep, ho, hq], ?_⟩
            intro hnil
            rw [hnil] at hq
            simp at hq
        · left
          simp [estep, ho]
    | finish success =>
      left
      by_cases hz : s.activeDrains = 0
      · simp [estep, hz]
      · simp [estep, hz]
  · intro ok ho
    cases ok <;> simp [estep, ho]

theorem drain_start_guard_witness :
    (estep ⟨true, [⟨1, .create, .idOnly 1, 1⟩], 1⟩ (NetEvent.probe true)).activeDrains =
      (⟨true, [⟨1, .create, .idOnly 1, 1⟩], 1⟩ : EState).activeDrains :=
  (drain_start_guard ⟨true, [⟨1, .create, .idOnly 1, 1⟩], 1⟩ (NetEvent.probe true)).2 true rfl

/-
Claim C9: tolerance of corrupt stored values in the loads.
-/

/-- C9 counterexample: the stored text 5 is corrupt as a task collection
but parses successfully (ECMAScript JSON.parse of 5 yields the number 5);
loadTodos returns that non-collection value as-is instead of the empty
collection, because only parse exceptions are caught. -/
theorem load_corrupt_counterexample :
    loadTodos jsonParseNum (some "5") = JsonVal.noncoll "the number 5" ∧
    loadTodos jsonParseNum (some "5") ≠ JsonVal.coll [] := by
  decide

/-- C9 (amended): for every stored value that is absent, empty (falsy), or
on which the parser throws, loadTodos and loadPendingSync return the empty
collection and propagate no fault (both are total functions); a stored
value that parses successfully is returned as-is even when it is not a
collection at all. -/
theorem load_fallback (parseT : String → Except String (JsonVal Task))
    (parseP : String → Except String (JsonVal SyncItem)) (st sp : Option String)
    (hT : FallbackStored parseT st) (hP : FallbackStored parseP sp) :
    loadTodos parseT st = JsonVal.coll [] ∧ loadPendingSync parseP sp = JsonVal.coll [] := by
  constructor
  · rcases hT with h | h | ⟨str, e, hst, hpe⟩
    · rw [h]
      simp [loadTodos]
    · rw [h]
      simp [loadTodos]
    · rw [hst]
      by_cases hs : str = "" <;> simp [loadTodos, hs, hpe]
  · rcases hP with h | h | ⟨str, e, hst, hpe⟩
    · rw [h]
      simp [loadPendingSync]
    · rw [h]
      simp [loadPendingSync]
    · rw [hst]
      by_cases hs : str = "" <;> simp [loadPendingSync, hs, hpe]

theorem load_fallback_witness :
    loadTodos (fun _ => Except.error "SyntaxError") (some "[oops") = JsonVal.coll [] ∧
    loadPendingSync (fun _ => Except.error "SyntaxError") none = JsonVal.coll [] :=
  load_fallback (fun _ => Except.error "SyntaxError") (fun _ => Except.error "SyntaxError")
    (some "[oops") none
    (Or.inr (Or.inr ⟨"[oops", "SyntaxError", rfl, rfl⟩)) (Or.inl rfl)

end OfflineWeb
